import Mathlib

/-! Verification of the Android Hello World template post-generation hook
    and its validation module. The definitions below are a shallow
    embedding of scripts/validator.py and hooks/post_gen_project.py:
    the mutable error and warning accumulators of the Python class become
    an explicit state record threaded through each rule, the four regular
    expressions of the source are compiled by hand to executable matchers
    with re.match anchoring semantics (a final dollar in a pattern also
    matches just before one trailing newline), the Python int constructor
    becomes an Option-valued parser, and the external world (the java
    subprocess, the filesystem) is a parameter. Logging calls of the
    source are pure output and are omitted. All character classes are the
    ASCII ones written in the source patterns. -/

namespace AndroidTemplate

/-- Word character class of the project-name regex, bracket class of
    letters, digits and underscore. -/
def isWordChar (c : Char) : Bool := c.isAlpha || c.isDigit || c == '_'

/-- Segment character class of the package-name regex: lower-case letters,
    digits and underscore. -/
def isPkgChar (c : Char) : Bool := c.isLower || c.isDigit || c == '_'

/-- Character class of the local part of the email regex: letters, digits,
    dot, underscore, percent, plus, minus. -/
def isLocalChar (c : Char) : Bool :=
  c.isAlpha || c.isDigit || c == '.' || c == '_' || c == '%' || c == '+' || c == '-'

/-- Character class of the email domain and of the semver prerelease and
    build groups: letters, digits, dot, minus. -/
def isDomainChar (c : Char) : Bool := c.isAlpha || c.isDigit || c == '.' || c == '-'

/-- Full match of the project-name regex body: one letter followed by word
    characters. -/
def nameCore : List Char → Bool
  | [] => false
  | c :: rest => c.isAlpha && rest.all isWordChar

/-- Scanner for the package-name regex body: lower-case segments joined by
    dots. The flag is true when the next character must start a new
    segment. The dot is not a segment character, so this deterministic
    scan decides exactly the language of the source regex. -/
def packGo : Bool → List Char → Bool
  | needStart, [] => !needStart
  | true, c :: rest => c.isLower && packGo false rest
  | false, c :: rest =>
      if c == '.' then packGo true rest else isPkgChar c && packGo false rest

/-- Full match of the package-name regex body. -/
def packageCore (l : List Char) : Bool := packGo true l

/-- Domain part of the email regex: a nonempty run of domain characters, a
    dot, then at least two letters reaching the end. Because the top-level
    run is letters only, the splitting dot is necessarily the last dot of
    the domain, so splitting at the last dot decides exactly the language
    of the anchored regex fragment. -/
def emailDomain (dom : List Char) : Bool :=
  let revd := dom.reverse
  let tld := revd.takeWhile Char.isAlpha
  match revd.drop tld.length with
  | '.' :: revA => decide (2 ≤ tld.length) && !revA.isEmpty && revA.all isDomainChar
  | _ => false

/-- Full match of the email regex body: a nonempty run of local characters
    (maximal, since the at sign is not a local character), an at sign, then
    the domain part. -/
def emailCore (l : List Char) : Bool :=
  let lp := l.takeWhile isLocalChar
  match l.drop lp.length with
  | '@' :: dom => !lp.isEmpty && emailDomain dom
  | _ => false

/-- Optional build group of the semver regex: empty, or a plus sign and a
    nonempty run over the build character class reaching the end. -/
def semverBuild : List Char → Bool
  | [] => true
  | '+' :: r => !r.isEmpty && r.all isDomainChar
  | _ => false

/-- Tail of the semver regex after the three dotted numbers: an optional
    minus-prefixed prerelease group, then the optional build group. The
    plus sign is not a prerelease character, so the maximal prerelease run
    is the only possible one. -/
def semverTail : List Char → Bool
  | [] => true
  | '-' :: r =>
      let p := r.takeWhile isDomainChar
      !p.isEmpty && semverBuild (r.drop p.length)
  | '+' :: r => !r.isEmpty && r.all isDomainChar
  | _ => false

/-- Full match of the semver regex body: digits, dot, digits, dot, digits,
    then the optional prerelease and build groups. -/
def semverCore (l : List Char) : Bool :=
  let d1 := l.takeWhile Char.isDigit
  let r1 := l.drop d1.length
  if d1.isEmpty then false else
  match r1 with
  | '.' :: r2 =>
      let d2 := r2.takeWhile Char.isDigit
      let r3 := r2.drop d2.length
      if d2.isEmpty then false else
      match r3 with
      | '.' :: r4 =>
          let d3 := r4.takeWhile Char.isDigit
          let r5 := r4.drop d3.length
          if d3.isEmpty then false else semverTail r5
      | _ => false
  | _ => false

/-- Truthiness of re.match with a pattern anchored by caret and dollar: the
    body must match the whole string, or the whole string minus one final
    newline, because outside multiline mode the dollar also matches just
    before a newline that ends the string. -/
def pyRegexMatch (core : List Char → Bool) (s : String) : Bool :=
  core s.data ||
    match s.data.getLast? with
    | some c => c == '\n' && core s.data.dropLast
    | none => false

/-- ASCII whitespace stripped by the Python int constructor. -/
def isPySpace (c : Char) : Bool :=
  c == ' ' || c == '\t' || c == '\n' || c == '\r' || c == '\x0b' || c == '\x0c'

/-- Digit accumulator of the Python int constructor: a single underscore is
    permitted between two digits. -/
def pyDigitsGo (acc : Nat) : List Char → Option Nat
  | [] => some acc
  | [c] => if c.isDigit then some (acc * 10 + (c.toNat - 48)) else none
  | c :: d :: rest =>
      if c.isDigit then pyDigitsGo (acc * 10 + (c.toNat - 48)) (d :: rest)
      else if c == '_' && d.isDigit then pyDigitsGo (acc * 10 + (d.toNat - 48)) rest
      else none

/-- Nonempty digit run with optional grouping underscores. -/
def pyDigits : List Char → Option Nat
  | [] => none
  | c :: rest => if c.isDigit then pyDigitsGo (c.toNat - 48) rest else none

/-- Python int conversion applied to a string: strip surrounding
    whitespace, take an optional sign, then digits with optional grouping
    underscores. Returns none exactly where the source would raise
    ValueError, which every caller catches. -/
def pyParseInt (s : String) : Option Int :=
  let l1 := s.data.dropWhile isPySpace
  let l := (l1.reverse.dropWhile isPySpace).reverse
  match l with
  | '+' :: rest => (pyDigits rest).map (fun n => (n : Int))
  | '-' :: rest => (pyDigits rest).map (fun n => -(n : Int))
  | rest => (pyDigits rest).map (fun n => (n : Int))

/-- Error and warning accumulators of AndroidTemplateValidator. The
    constructor of the Python class starts both lists empty. -/
structure VState where
  errors : List String
  warnings : List String
  deriving DecidableEq

/-- Message recorded by validate_all for an absent required field. -/
def missingMsg (field : String) : String :=
  "Required field \x27" ++ field ++ "\x27 is missing"

/-- Warning recorded by validate_project_name for a reserved name. -/
def reservedMsg (name : String) : String :=
  "Project name \x27" ++ name ++ "\x27 might conflict with Android reserved words"

/-- Lower-casing applied by the reserved-word check, character by
    character as the Python lower method does on ASCII input. -/
def pyLower (s : String) : String := ⟨s.data.map Char.toLower⟩

/-- Reserved words checked by validate_project_name. -/
def reserved_words : List String := ["android", "test", "main", "java", "kotlin", "gradle"]

/-- Embedding of AndroidTemplateValidator.validate_project_name. -/
def validate_project_name (st : VState) (name : String) : Bool × VState :=
  if name = "" then
    (false, { st with errors := st.errors ++ ["Project name cannot be empty"] })
  else if ¬ pyRegexMatch nameCore name then
    (false, { st with errors := st.errors ++
      ["Project name must start with a letter and contain only letters, numbers, and underscores"] })
  else if name.length > 50 then
    (false, { st with errors := st.errors ++ ["Project name must be 50 characters or less"] })
  else if reserved_words.contains (pyLower name) then
    (true, { st with warnings := st.warnings ++ [reservedMsg name] })
  else
    (true, st)

/-- Embedding of AndroidTemplateValidator.validate_package_name. -/
def validate_package_name (st : VState) (package : String) : Bool × VState :=
  if package = "" then
    (false, { st with errors := st.errors ++ ["Package name cannot be empty"] })
  else if ¬ pyRegexMatch packageCore package then
    (false, { st with errors := st.errors ++
      ["Package name must follow Java package naming conventions (e.g., com.example.app)"] })
  else if package.length > 100 then
    (false, { st with errors := st.errors ++ ["Package name must be 100 characters or less"] })
  else
    (true, st)

/-- Embedding of AndroidTemplateValidator.validate_sdk_version. The source
    gives the bounds as defaulted parameters; every call site passes 21 and
    35 explicitly through a lambda. -/
def validate_sdk_version (st : VState) (version : String) (mn mx : Int) : Bool × VState :=
  match pyParseInt version with
  | some n =>
      if n < mn ∨ n > mx then
        (false, { st with errors := st.errors ++
          ["SDK version must be between " ++ toString mn ++ " and " ++ toString mx] })
      else (true, st)
  | none =>
      (false, { st with errors := st.errors ++ ["SDK version must be a valid integer"] })

/-- Embedding of AndroidTemplateValidator.validate_java_version. -/
def validate_java_version (st : VState) (version : String) : Bool × VState :=
  match pyParseInt version with
  | some n =>
      if n < 8 ∨ n > 21 then
        (false, { st with errors := st.errors ++ ["Java version must be between 8 and 21"] })
      else (true, st)
  | none =>
      (false, { st with errors := st.errors ++ ["Java version must be a valid integer"] })

/-- Embedding of AndroidTemplateValidator.validate_email. -/
def validate_email (st : VState) (email : String) : Bool × VState :=
  if email = "" then
    (true, { st with warnings := st.warnings ++ ["Email address is empty (optional but recommended)"] })
  else if ¬ pyRegexMatch emailCore email then
    (false, { st with errors := st.errors ++ ["Invalid email address format"] })
  else
    (true, st)

/-- Embedding of AndroidTemplateValidator.validate_version_name. A
    non-semver nonempty value only warns. -/
def validate_version_name (st : VState) (version : String) : Bool × VState :=
  if version = "" then
    (false, { st with errors := st.errors ++ ["Version name cannot be empty"] })
  else if ¬ pyRegexMatch semverCore version then
    (true, { st with warnings := st.warnings ++
      ["Version name should follow semantic versioning (e.g., 1.0.0)"] })
  else
    (true, st)

/-- Outcome of the subprocess run of the java version command: an exit
    code, a timeout, or a missing executable. The last two are exactly the
    exceptions the source catches. -/
inductive JavaRun
  | exited (code : Int)
  | timedOut
  | notFound
  deriving DecidableEq

/-- Host environment observed by validate_environment: the java probe
    outcome, a filesystem existence predicate, and the home directory and
    user name from which the source builds its candidate paths. -/
structure Env where
  javaRun : JavaRun
  fsExists : String → Bool
  homeDir : String
  userName : String

/-- Candidate Android SDK locations probed by validate_environment. -/
def sdk_paths (e : Env) : List String :=
  [e.homeDir ++ "/Library/Android/sdk",
   e.homeDir ++ "/Android/Sdk",
   "C:/Users/" ++ e.userName ++ "/AppData/Local/Android/Sdk"]

/-- Candidate Android Studio locations probed by validate_environment. -/
def studio_paths (e : Env) : List String :=
  ["/Applications/Android Studio.app",
   e.homeDir ++ "/android-studio",
   "C:/Program Files/Android/Android Studio"]

/-- Embedding of AndroidTemplateValidator.validate_environment. The loops
    of the source stop at the first existing path and only record a
    warning when no candidate exists, which is the any-fold below. The
    returned boolean reports emptiness of the whole error accumulator and
    is discarded by the caller. -/
def validate_environment (env : Env) (st : VState) : Bool × VState :=
  let st1 :=
    match env.javaRun with
    | JavaRun.exited c =>
        if c = 0 then st
        else { st with errors := st.errors ++ ["Java is not properly installed"] }
    | JavaRun.timedOut => { st with errors := st.errors ++ ["Java is not installed"] }
    | JavaRun.notFound => { st with errors := st.errors ++ ["Java is not installed"] }
  let st2 :=
    if (sdk_paths env).any env.fsExists then st1
    else { st1 with warnings := st1.warnings ++ ["Android SDK not found in common locations"] }
  let st3 :=
    if (studio_paths env).any env.fsExists then st2
    else { st2 with warnings := st2.warnings ++ ["Android Studio not found in common locations"] }
  (st3.errors.isEmpty, st3)

/-- Context mapping delivered by the template engine: field names to string
    values, consulted only through lookup. -/
abbrev Ctx := List (String × String)

/-- Required-field table of validate_all, in the declared iteration order
    of the source dict. -/
def required_fields : List (String × (VState → String → Bool × VState)) :=
  [("project_name", validate_project_name),
   ("package_name", validate_package_name),
   ("min_sdk", fun st x => validate_sdk_version st x 21 35),
   ("target_sdk", fun st x => validate_sdk_version st x 21 35),
   ("compile_sdk", fun st x => validate_sdk_version st x 21 35),
   ("java_version", validate_java_version),
   ("version_name", validate_version_name)]

/-- Tail of the required-field table, the six entries after project_name. -/
def restFields : List (String × (VState → String → Bool × VState)) :=
  required_fields.tail

/-- One iteration of the required-field loop of validate_all: apply the
    rule when the field is present, record a missing-field error (and do
    not touch the rule) when it is absent. -/
def stepField (ctx : Ctx) (fv : String × (VState → String → Bool × VState))
    (st : VState) : VState :=
  match ctx.lookup fv.1 with
  | some v => (fv.2 st v).2
  | none => { st with errors := st.errors ++ [missingMsg fv.1] }

/-- The required-field loop of validate_all over a rule table. -/
def runRequired (rules : List (String × (VState → String → Bool × VState)))
    (ctx : Ctx) (st : VState) : VState :=
  rules.foldl (fun st fv => stepField ctx fv st) st

/-- The optional author_email check of validate_all. -/
def emailStage (ctx : Ctx) (st : VState) : VState :=
  match ctx.lookup "author_email" with
  | some v => (validate_email st v).2
  | none => st

/-- Accumulator state after a full validate_all pass: the required-field
    loop, then the optional email check, then the environment checks. -/
def finalState (ctx : Ctx) (env : Env) (st : VState) : VState :=
  (validate_environment env (emailStage ctx (runRequired required_fields ctx st))).2

/-- Embedding of AndroidTemplateValidator.validate_all: the tri-tuple of
    the source is emptiness of the error list, the error list, and the
    warning list after the full pass. -/
def validate_all (ctx : Ctx) (env : Env) (st : VState) : Bool × List String × List String :=
  ((finalState ctx env st).errors.isEmpty,
   (finalState ctx env st).errors,
   (finalState ctx env st).warnings)

/-- Embedding of the module-level validate_template_inputs, which builds a
    fresh validator (both accumulators empty) and runs validate_all. -/
def validate_template_inputs (ctx : Ctx) (env : Env) : Bool × List String × List String :=
  validate_all ctx env ⟨[], []⟩

/-- Inputs of one run of the post-generation hook main function: whether
    the context file exists, its parsed content, the environment probe
    outcomes, the filesystem at structure-check time, and whether the
    requirements generator import and call succeed. -/
structure HookInput where
  ctxFileExists : Bool
  ctx : Ctx
  env : Env
  fsExists : String → Bool
  versionDetectorOk : Bool

/-- Observable outcome of one run of the hook main function. -/
structure HookResult where
  exitCode : Nat
  ctxFileDeleted : Bool
  missingFiles : List String
  structureFailed : Bool
  requirementsWritten : Bool
  deriving DecidableEq

/-- Required relative paths of the project-structure verification step. -/
def required_files : List String :=
  ["app/build.gradle.kts",
   "app/src/main/java",
   "app/src/main/AndroidManifest.xml",
   "build.gradle.kts",
   "settings.gradle.kts",
   "gradlew",
   "gradlew.bat"]

/-- Truthiness of a pathlib.Path object. Path defines neither a bool nor a
    len conversion, so Python object truthiness applies and every Path is
    truthy. The structure-check condition of the source tests exactly this,
    not existence on disk. -/
def pyPathBool (_p : String) : Bool := true

/-- The missing-files loop of the structure verification step. The
    filesystem is passed in because the claim ranges over filesystem
    states, but the loop body never consults it: its condition is the
    negated truthiness of a constructed Path object. -/
def missing_files_calc (_fs : String → Bool) (projectDir : String) : List String :=
  required_files.foldl
    (fun acc fp => if !(pyPathBool (projectDir ++ "/" ++ fp)) then acc ++ [fp] else acc) []

/-- Embedding of the control flow of main in hooks/post_gen_project.py.
    When the context file exists and validation fails, the process exits
    with code 1 at that point, before the structure check, the
    requirements step and the cleanup step. The cleanup step deletes the
    context file when it still exists, which on the paths that reach it is
    exactly when it existed at the start, since no earlier step touches
    it. The requirements step catches every exception, so its failure
    never changes the control flow. -/
def runMain (inp : HookInput) (projectDir : String) : HookResult :=
  if inp.ctxFileExists ∧ (validate_template_inputs inp.ctx inp.env).1 = false then
    { exitCode := 1, ctxFileDeleted := false, missingFiles := [],
      structureFailed := false, requirementsWritten := false }
  else if ¬ (missing_files_calc inp.fsExists projectDir).isEmpty then
    { exitCode := 1, ctxFileDeleted := false,
      missingFiles := missing_files_calc inp.fsExists projectDir,
      structureFailed := true, requirementsWritten := false }
  else
    { exitCode := 0, ctxFileDeleted := inp.ctxFileExists,
      missingFiles := missing_files_calc inp.fsExists projectDir,
      structureFailed := false, requirementsWritten := inp.versionDetectorOk }

/-- Modelled from the words of the specification, for comparison with the
    source behaviour: the mathematical full match of the project-name
    pattern of the spec, a letter followed by at most 49 word characters,
    with nothing else in the string. -/
def specProjectNamePattern (s : String) : Bool :=
  match s.data with
  | [] => false
  | c :: rest => c.isAlpha && rest.all isWordChar && decide (rest.length ≤ 49)

/-- Error messages contributed by the java probe alone, by probe
    outcome. -/
def javaErrs : JavaRun → List String
  | JavaRun.exited c => if c = 0 then [] else ["Java is not properly installed"]
  | JavaRun.timedOut => ["Java is not installed"]
  | JavaRun.notFound => ["Java is not installed"]

/-- An environment in which every probe succeeds: java exits zero and
    every candidate path exists. -/
def envAllGood : Env :=
  { javaRun := JavaRun.exited 0, fsExists := fun _ => true,
    homeDir := "/home/user", userName := "user" }

/-- A fully valid context, the worked example of the spec. -/
def ctxGood : Ctx :=
  [("project_name", "MyApp"), ("package_name", "com.example.myapp"),
   ("min_sdk", "24"), ("target_sdk", "34"), ("compile_sdk", "34"),
   ("java_version", "17"), ("version_name", "1.0.0")]

/-- A context valid except that the project name is the reserved word
    android. -/
def ctxAndroid : Ctx :=
  [("project_name", "android"), ("package_name", "com.example.myapp"),
   ("min_sdk", "24"), ("target_sdk", "34"), ("compile_sdk", "34"),
   ("java_version", "17"), ("version_name", "1.0.0")]

/-- A hook run whose context file exists and whose context is valid. -/
def inpGood : HookInput :=
  { ctxFileExists := true, ctx := ctxGood, env := envAllGood,
    fsExists := fun _ => true, versionDetectorOk := true }

/-- A hook run whose context file exists but whose context is empty, so
    every required field is missing and validation fails. -/
def inpBad : HookInput :=
  { ctxFileExists := true, ctx := [], env := envAllGood,
    fsExists := fun _ => true, versionDetectorOk := true }

/-- Frame property of a rule: its boolean and its appended messages do not
    depend on the accumulator it starts from. -/
def RuleFrame (r : VState → String → Bool × VState) : Prop :=
  ∀ st s, r st s = ((r ⟨[], []⟩ s).1,
    ⟨st.errors ++ (r ⟨[], []⟩ s).2.errors, st.warnings ++ (r ⟨[], []⟩ s).2.warnings⟩)

/-- Frame property of a state transformer: it appends to both accumulators
    a block that does not depend on the state it starts from. -/
def FrameFn (f : VState → VState) : Prop :=
  ∀ st, f st = ⟨st.errors ++ (f ⟨[], []⟩).errors, st.warnings ++ (f ⟨[], []⟩).warnings⟩

lemma append_singleton_ne (l : List String) (a : String) : l ++ [a] ≠ l := by
  intro h
  have := congrArg List.length h
  simp at this

lemma isEmpty_true_iff {l : List String} : l.isEmpty = true ↔ l = [] := by
  cases l <;> simp

lemma isEmpty_false_of_mem {l : List String} {a : String} (h : a ∈ l) : l.isEmpty = false := by
  cases l with
  | nil => cases h
  | cons b t => rfl

lemma rf_project_name : RuleFrame validate_project_name := by
  intro st s
  unfold validate_project_name
  split_ifs <;> simp

lemma rf_package_name : RuleFrame validate_package_name := by
  intro st s
  unfold validate_package_name
  split_ifs <;> simp

lemma validate_sdk_version_none {s : String} (h : pyParseInt s = none) (st : VState)
    (mn mx : Int) :
    validate_sdk_version st s mn mx =
      (false, { st with errors := st.errors ++ ["SDK version must be a valid integer"] }) := by
  unfold validate_sdk_version
  rw [h]

lemma validate_sdk_version_some {s : String} {n : Int} (h : pyParseInt s = some n)
    (st : VState) (mn mx : Int) :
    validate_sdk_version st s mn mx =
      if n < mn ∨ n > mx then
        (false, { st with errors := st.errors ++
          ["SDK version must be between " ++ toString mn ++ " and " ++ toString mx] })
      else (true, st) := by
  unfold validate_sdk_version
  rw [h]

lemma validate_java_version_none {s : String} (h : pyParseInt s = none) (st : VState) :
    validate_java_version st s =
      (false, { st with errors := st.errors ++ ["Java version must be a valid integer"] }) := by
  unfold validate_java_version
  rw [h]

lemma validate_java_version_some {s : String} {n : Int} (h : pyParseInt s = some n)
    (st : VState) :
    validate_java_version st s =
      if n < 8 ∨ n > 21 then
        (false, { st with errors := st.errors ++ ["Java version must be between 8 and 21"] })
      else (true, st) := by
  unfold validate_java_version
  rw [h]

lemma rf_sdk (mn mx : Int) : RuleFrame (fun st s => validate_sdk_version st s mn mx) := by
  intro st s
  show validate_sdk_version st s mn mx = _
  cases h : pyParseInt s with
  | none => simp [validate_sdk_version_none h]
  | some n =>
      simp only [validate_sdk_version_some h]
      split_ifs <;> simp

lemma rf_java : RuleFrame validate_java_version := by
  intro st s
  cases h : pyParseInt s with
  | none => simp [validate_java_version_none h]
  | some n =>
      simp only [validate_java_version_some h]
      split_ifs <;> simp

lemma rf_email : RuleFrame validate_email := by
  intro st s
  unfold validate_email
  split_ifs <;> simp

lemma rf_version_name : RuleFrame validate_version_name := by
  intro st s
  unfold validate_version_name
  split_ifs <;> simp

lemma vpn_reserved (st : VState) (n : String)
    (hres : reserved_words.contains (pyLower n) = true) :
    (∃ m, (validate_project_name st n).2.errors = st.errors ++ [m]) ∨
    ((validate_project_name st n).2.warnings = st.warnings ++ [reservedMsg n] ∧
      (validate_project_name st n).2.errors = st.errors) := by
  unfold validate_project_name
  split_ifs <;>
    first
      | exact Or.inl ⟨_, rfl⟩
      | exact Or.inr ⟨rfl, rfl⟩

lemma required_fields_eq :
    required_fields = ("project_name", validate_project_name) :: restFields := rfl

lemma rules_frame : ∀ fv ∈ required_fields, RuleFrame fv.2 := by
  intro fv h
  simp only [required_fields, List.mem_cons, List.not_mem_nil, or_false] at h
  rcases h with rfl | rfl | rfl | rfl | rfl | rfl | rfl
  · exact rf_project_name
  · exact rf_package_name
  · exact rf_sdk 21 35
  · exact rf_sdk 21 35
  · exact rf_sdk 21 35
  · exact rf_java
  · exact rf_version_name

lemma rules_frame_rest : ∀ fv ∈ restFields, RuleFrame fv.2 := by
  intro fv h
  exact rules_frame fv (by rw [required_fields_eq]; exact List.mem_cons_of_mem _ h)

lemma stepField_some (ctx : Ctx) (fv : String × (VState → String → Bool × VState))
    {v : String} (h : ctx.lookup fv.1 = some v) (st : VState) :
    stepField ctx fv st = (fv.2 st v).2 := by
  unfold stepField
  rw [h]

lemma stepField_none (ctx : Ctx) (fv : String × (VState → String → Bool × VState))
    (h : ctx.lookup fv.1 = none) (st : VState) :
    stepField ctx fv st = { st with errors := st.errors ++ [missingMsg fv.1] } := by
  unfold stepField
  rw [h]

lemma stepField_frame (ctx : Ctx) (fv : String × (VState → String → Bool × VState))
    (hfv : RuleFrame fv.2) : FrameFn (stepField ctx fv) := by
  intro st
  cases h : ctx.lookup fv.1 with
  | none =>
      rw [stepField_none ctx fv h st, stepField_none ctx fv h ⟨[], []⟩]
      try simp
  | some v =>
      rw [stepField_some ctx fv h st, stepField_some ctx fv h ⟨[], []⟩, hfv st v, hfv ⟨[], []⟩ v]
      try simp

lemma FrameFn.comp {f g : VState → VState} (hf : FrameFn f) (hg : FrameFn g) :
    FrameFn (fun st => g (f st)) := by
  intro st
  show g (f st) = ⟨st.errors ++ (g (f ⟨[], []⟩)).errors, st.warnings ++ (g (f ⟨[], []⟩)).warnings⟩
  rw [hg (f st), hf st, hg (f ⟨[], []⟩)]
  simp [List.append_assoc]

lemma FrameFn.errors_mono {f : VState → VState} (hf : FrameFn f) (st : VState)
    {e : String} (h : e ∈ st.errors) : e ∈ (f st).errors := by
  rw [hf st]
  exact List.mem_append_left _ h

lemma FrameFn.warnings_mono {f : VState → VState} (hf : FrameFn f) (st : VState)
    {w : String} (h : w ∈ st.warnings) : w ∈ (f st).warnings := by
  rw [hf st]
  exact List.mem_append_left _ h

lemma frame_runRequired (ctx : Ctx) :
    ∀ rules, (∀ fv ∈ rules, RuleFrame fv.2) → FrameFn (runRequired rules ctx) := by
  intro rules
  induction rules with
  | nil => intro _ st; simp [runRequired]
  | cons fv rs ih =>
      intro hr st
      have hstep := stepField_frame ctx fv (hr fv (List.mem_cons_self _ _))
      have hrs := ih (fun g hg => hr g (List.mem_cons_of_mem _ hg))
      show runRequired rs ctx (stepField ctx fv st) =
        ⟨st.errors ++ (runRequired rs ctx (stepField ctx fv ⟨[], []⟩)).errors,
         st.warnings ++ (runRequired rs ctx (stepField ctx fv ⟨[], []⟩)).warnings⟩
      rw [hrs (stepField ctx fv st), hstep st, hrs (stepField ctx fv ⟨[], []⟩), hstep ⟨[], []⟩]
      simp [List.append_assoc]

lemma emailStage_some (ctx : Ctx) {v : String} (h : ctx.lookup "author_email" = some v)
    (st : VState) : emailStage ctx st = (validate_email st v).2 := by
  unfold emailStage
  rw [h]

lemma emailStage_none (ctx : Ctx) (h : ctx.lookup "author_email" = none) (st : VState) :
    emailStage ctx st = st := by
  unfold emailStage
  rw [h]

lemma frame_email (ctx : Ctx) : FrameFn (emailStage ctx) := by
  intro st
  cases h : ctx.lookup "author_email" with
  | none =>
      rw [emailStage_none ctx h st, emailStage_none ctx h ⟨[], []⟩]
      try simp
  | some v =>
      rw [emailStage_some ctx h st, emailStage_some ctx h ⟨[], []⟩,
        rf_email st v, rf_email ⟨[], []⟩ v]
      try simp

lemma validate_environment_spec (env : Env) (st : VState) :
    (validate_environment env st).2 =
      ⟨st.errors ++ javaErrs env.javaRun,
       st.warnings
         ++ (if (sdk_paths env).any env.fsExists then []
             else ["Android SDK not found in common locations"])
         ++ (if (studio_paths env).any env.fsExists then []
             else ["Android Studio not found in common locations"])⟩ := by
  unfold validate_environment javaErrs
  cases env.javaRun with
  | exited c =>
      by_cases hc : c = 0 <;> simp only [hc, if_true, if_false, ite_true, ite_false,
        if_pos, if_neg, not_false_iff] <;> split_ifs <;> simp [hc]
  | timedOut => split_ifs <;> simp
  | notFound => split_ifs <;> simp

lemma frame_env (env : Env) : FrameFn (fun st => (validate_environment env st).2) := by
  intro st
  simp only [validate_environment_spec]
  simp [List.append_assoc]

lemma frame_finalState (ctx : Ctx) (env : Env) : FrameFn (finalState ctx env) := by
  have h : FrameFn (fun st =>
      (fun st => (validate_environment env st).2)
        ((fun st => emailStage ctx (runRequired required_fields ctx st)) st)) :=
    FrameFn.comp
      (FrameFn.comp (frame_runRequired ctx required_fields rules_frame) (frame_email ctx))
      (frame_env env)
  exact h

lemma runRequired_missing (ctx : Ctx) :
    ∀ rules, (∀ g ∈ rules, RuleFrame g.2) →
      ∀ (st : VState) (fv : String × (VState → String → Bool × VState)),
        fv ∈ rules → ctx.lookup fv.1 = none →
        missingMsg fv.1 ∈ (runRequired rules ctx st).errors := by
  intro rules
  induction rules with
  | nil => intro _ st fv h; exact absurd h (List.not_mem_nil fv)
  | cons g rs ih =>
      intro hr st fv hmem habs
      rcases List.mem_cons.mp hmem with rfl | hmem2
      · have hhead : missingMsg fv.1 ∈ (stepField ctx fv st).errors := by
          rw [stepField_none ctx fv habs st]
          exact List.mem_append_right _ (List.mem_singleton_self _)
        show missingMsg fv.1 ∈ (runRequired rs ctx (stepField ctx fv st)).errors
        exact (frame_runRequired ctx rs
          (fun x hx => hr x (List.mem_cons_of_mem _ hx))).errors_mono _ hhead
      · show missingMsg fv.1 ∈ (runRequired rs ctx (stepField ctx g st)).errors
        exact ih (fun x hx => hr x (List.mem_cons_of_mem _ hx)) _ fv hmem2 habs

lemma stepField_swap (ctx : Ctx) (field : String)
    (r r2 : VState → String → Bool × VState) (habs : ctx.lookup field = none)
    (st : VState) : stepField ctx (field, r2) st = stepField ctx (field, r) st := by
  rw [stepField_none ctx (field, r2) habs st, stepField_none ctx (field, r) habs st]

/-- C1: for every context, environment and starting state, validate_all
    returns a tri-tuple whose first component is true exactly when the
    returned error list is empty, and the same holds for
    validate_template_inputs; the warnings accumulated play no role in the
    success boolean. -/
theorem validate_all_success_iff_no_errors (ctx : Ctx) (env : Env) (st : VState) :
    ((validate_all ctx env st).1 = true ↔ (validate_all ctx env st).2.1 = [])
    ∧ ((validate_template_inputs ctx env).1 = true ↔
        (validate_template_inputs ctx env).2.1 = []) :=
  ⟨isEmpty_true_iff, isEmpty_true_iff⟩

/-- C2: for every context and every required field absent from it,
    validate_all records the missing-field error naming that field and
    returns success false; moreover the absent field rule is never
    consulted: replacing it by any other rule leaves the required-field
    pass unchanged. The embedding is total, so no exception is modelled
    or needed. -/
theorem validate_all_missing_required_field (ctx : Ctx) (env : Env) (st : VState)
    (field : String) (hmem : field ∈ required_fields.map Prod.fst)
    (habs : ctx.lookup field = none) :
    missingMsg field ∈ (validate_all ctx env st).2.1
    ∧ (validate_all ctx env st).1 = false
    ∧ ∀ l1 r r2 l2, required_fields = l1 ++ (field, r) :: l2 →
        runRequired (l1 ++ (field, r2) :: l2) ctx st = runRequired required_fields ctx st := by
  rcases List.mem_map.mp hmem with ⟨fv, hfv, hfst⟩
  have hmiss : missingMsg field ∈ (runRequired required_fields ctx st).errors := by
    have h := runRequired_missing ctx required_fields rules_frame st fv hfv
      (by rw [hfst]; exact habs)
    rwa [hfst] at h
  have hfinal : missingMsg field ∈ (finalState ctx env st).errors :=
    (frame_env env).errors_mono _ ((frame_email ctx).errors_mono _ hmiss)
  refine ⟨hfinal, isEmpty_false_of_mem hfinal, ?_⟩
  intro l1 r r2 l2 hsplit
  rw [hsplit]
  unfold runRequired
  rw [List.foldl_append, List.foldl_append, List.foldl_cons, List.foldl_cons]
  congr 1
  exact stepField_swap ctx field r r2 habs _

/-- C2 witness: an empty context misses version_name; validation records
    the missing-field error and fails. -/
theorem validate_all_missing_required_field_witness :
    missingMsg "version_name" ∈ (validate_all [] envAllGood ⟨[], []⟩).2.1
    ∧ (validate_all [] envAllGood ⟨[], []⟩).1 = false := by
  have h := validate_all_missing_required_field [] envAllGood ⟨[], []⟩ "version_name"
    (by decide) rfl
  exact ⟨h.1, h.2.1⟩

/-- C3: with bounds 21 and 35, validate_sdk_version accepts exactly the
    strings whose Python int conversion yields a value in the closed
    interval from 21 to 35; on rejection it appends exactly one error and
    leaves the warnings alone, and on acceptance it leaves the state
    untouched. The embedding is a total function: the ValueError of the
    source is the none branch of the parser, so no exception escapes. -/
theorem validate_sdk_version_spec (st : VState) (s : String) :
    ((validate_sdk_version st s 21 35).1 = true ↔
      ∃ k : Int, pyParseInt s = some k ∧ 21 ≤ k ∧ k ≤ 35)
    ∧ ((validate_sdk_version st s 21 35).1 = false →
        ∃ m, (validate_sdk_version st s 21 35).2 = ⟨st.errors ++ [m], st.warnings⟩)
    ∧ ((validate_sdk_version st s 21 35).1 = true →
        (validate_sdk_version st s 21 35).2 = st) := by
  cases h : pyParseInt s with
  | none =>
      rw [validate_sdk_version_none h st 21 35]
      refine ⟨⟨fun hh => by simp at hh, ?_⟩, fun _ => ⟨_, rfl⟩, fun hh => by simp at hh⟩
      rintro ⟨k, hm, _, _⟩
      exact Option.noConfusion hm
  | some n =>
      rw [validate_sdk_version_some h st 21 35]
      split_ifs with hc
      · refine ⟨⟨fun hh => by simp at hh, ?_⟩, fun _ => ⟨_, rfl⟩, fun hh => by simp at hh⟩
        rintro ⟨k, hm, h1, h2⟩
        exfalso
        have hk := Option.some.inj hm
        rcases hc with hc | hc <;> omega
      · push_neg at hc
        exact ⟨⟨fun _ => ⟨n, rfl, hc.1, hc.2⟩, fun _ => rfl⟩,
          fun hh => by simp at hh, fun _ => rfl⟩

/-- C3 witness: 34 is accepted, a non-numeric string is rejected with one
    appended error. -/
theorem validate_sdk_version_spec_witness :
    (validate_sdk_version ⟨[], []⟩ "34" 21 35).1 = true
    ∧ ∃ m, (validate_sdk_version ⟨[], []⟩ "abc" 21 35).2 = ⟨[] ++ [m], []⟩ := by
  constructor
  · exact (validate_sdk_version_spec ⟨[], []⟩ "34").1.mpr ⟨34, rfl, by norm_num, by norm_num⟩
  · exact (validate_sdk_version_spec ⟨[], []⟩ "abc").2.1 (by decide)

/-- C4 counterexample: the string Abc followed by one newline violates the
    mathematical project-name pattern of the claim, yet
    validate_project_name accepts it with no message, because the dollar of
    the source regex under re.match also matches just before a trailing
    newline. -/
theorem validate_project_name_counterexample :
    specProjectNamePattern "Abc\n" = false
    ∧ validate_project_name ⟨[], []⟩ "Abc\n" = (true, ⟨[], []⟩) :=
  ⟨by decide, by decide⟩

/-- C4 amended: validate_project_name accepts exactly the strings matched
    by the source regex under re.match semantics, where the dollar also
    accepts one trailing newline, of length at most 50; every other string
    gets false and exactly one appended error, and acceptance never
    appends an error. -/
theorem validate_project_name_amended (st : VState) (s : String) :
    ((validate_project_name st s).1 = true ↔
      (pyRegexMatch nameCore s = true ∧ s.length ≤ 50))
    ∧ ((validate_project_name st s).1 = false →
        ∃ m, (validate_project_name st s).2 = ⟨st.errors ++ [m], st.warnings⟩)
    ∧ ((validate_project_name st s).1 = true →
        (validate_project_name st s).2.errors = st.errors) := by
  unfold validate_project_name
  split_ifs with h1 h2 h3 h4
  · refine ⟨?_, fun _ => ⟨_, rfl⟩, fun hh => by simp at hh⟩
    subst h1
    refine ⟨fun hh => by simp at hh, ?_⟩
    rintro ⟨hm, _⟩
    exact absurd hm (by decide)
  · refine ⟨?_, fun _ => ⟨_, rfl⟩, fun hh => by simp at hh⟩
    refine ⟨fun hh => by simp at hh, ?_⟩
    rintro ⟨_, hlen⟩
    exact absurd hlen (by omega)
  · exact ⟨⟨fun _ => ⟨h2, by omega⟩, fun _ => rfl⟩,
      fun hh => by simp at hh, fun _ => rfl⟩
  · exact ⟨⟨fun _ => ⟨h2, by omega⟩, fun _ => rfl⟩,
      fun hh => by simp at hh, fun _ => rfl⟩
  · refine ⟨?_, fun _ => ⟨_, rfl⟩, fun hh => by simp at hh⟩
    refine ⟨fun hh => by simp at hh, ?_⟩
    rintro ⟨hm, _⟩
    exact absurd hm h2

/-- C4 amended witness: a plain well-formed name is accepted, a name
    starting with a digit is rejected with one appended error. -/
theorem validate_project_name_amended_witness :
    (validate_project_name ⟨[], []⟩ "MyApp").1 = true
    ∧ ∃ m, (validate_project_name ⟨[], []⟩ "9bad").2 = ⟨[] ++ [m], []⟩ := by
  constructor
  · exact (validate_project_name_amended ⟨[], []⟩ "MyApp").1.mpr ⟨by decide, by decide⟩
  · exact (validate_project_name_amended ⟨[], []⟩ "9bad").2.1 (by decide)

/-- C5 counterexample: a run whose context file exists but whose context is
    empty fails validation, exits with code 1 before the cleanup step, and
    leaves the context file in place, against the claim that deletion also
    happens on the validation-error exit path. -/
theorem context_cleanup_counterexample :
    inpBad.ctxFileExists = true
    ∧ (runMain inpBad "proj").exitCode = 1
    ∧ (runMain inpBad "proj").ctxFileDeleted = false :=
  ⟨rfl, by decide, by decide⟩

/-- C5 amended: the context file is deleted exactly on the runs that reach
    the cleanup step: whenever main terminates normally the file is deleted
    precisely when it existed, while on the validation-error path the
    process exits with code 1 before the cleanup step and the file is not
    deleted. -/
theorem context_cleanup_amended (inp : HookInput) (dir : String) :
    ((runMain inp dir).exitCode = 0 →
      (runMain inp dir).ctxFileDeleted = inp.ctxFileExists)
    ∧ (inp.ctxFileExists = true →
        (validate_template_inputs inp.ctx inp.env).1 = false →
        (runMain inp dir).exitCode = 1 ∧ (runMain inp dir).ctxFileDeleted = false) := by
  unfold runMain
  split_ifs with ha hb
  · exact ⟨fun hh => by simp at hh, fun _ _ => ⟨rfl, rfl⟩⟩
  · exact ⟨fun _ => rfl, fun hex hval => absurd ⟨hex, hval⟩ ha⟩
  · exact ⟨fun hh => by simp at hh, fun hex hval => absurd ⟨hex, hval⟩ ha⟩

/-- C5 amended witness: a fully valid run deletes the file, the failing
    run of the counterexample exits 1 without deleting it. -/
theorem context_cleanup_amended_witness :
    (runMain inpGood "proj").ctxFileDeleted = true
    ∧ (runMain inpBad "proj").exitCode = 1
    ∧ (runMain inpBad "proj").ctxFileDeleted = false := by
  refine ⟨?_, ?_, ?_⟩
  · exact (context_cleanup_amended inpGood "proj").1 (by decide)
  · exact ((context_cleanup_amended inpBad "proj").2 rfl (by decide)).1
  · exact ((context_cleanup_amended inpBad "proj").2 rfl (by decide)).2

/-- C6: the structure-verification loop never adds a path to its missing
    list, for every filesystem state and project directory, because its
    condition is the negated truthiness of a Path object and never an
    existence test; consequently the missing-files failure branch of main
    is unreachable and the step always reports the structure as
    verified. -/
theorem structure_check_noop :
    (∀ (fs : String → Bool) (projectDir : String), missing_files_calc fs projectDir = [])
    ∧ (∀ (inp : HookInput) (dir : String), (runMain inp dir).structureFailed = false) := by
  have hcalc : ∀ (fs : String → Bool) (dir : String), missing_files_calc fs dir = [] := by
    intro fs dir
    rfl
  refine ⟨hcalc, ?_⟩
  intro inp dir
  unfold runMain
  split_ifs with ha hb
  · rfl
  · rfl
  · rw [hcalc inp.fsExists dir] at hb
    simp at hb

/-- C7: for every context whose project_name is present and lower-cases to
    a reserved word, if validation from a fresh validator produces no
    error then it reports success and its warning list contains the
    reserved-word notice naming the value; the reserved-word condition
    itself never contributes an error. -/
theorem reserved_name_warning (ctx : Ctx) (env : Env) (n : String)
    (hn : ctx.lookup "project_name" = some n)
    (hres : reserved_words.contains (pyLower n) = true)
    (hne : (validate_template_inputs ctx env).2.1 = []) :
    (validate_template_inputs ctx env).1 = true
    ∧ reservedMsg n ∈ (validate_template_inputs ctx env).2.2 := by
  have hrun : runRequired required_fields ctx ⟨[], []⟩ =
      runRequired restFields ctx (validate_project_name ⟨[], []⟩ n).2 := by
    rw [required_fields_eq]
    show runRequired restFields ctx
      (stepField ctx ("project_name", validate_project_name) ⟨[], []⟩) = _
    rw [stepField_some ctx ("project_name", validate_project_name) hn ⟨[], []⟩]
  have hfin : finalState ctx env ⟨[], []⟩ =
      (validate_environment env (emailStage ctx
        (runRequired restFields ctx (validate_project_name ⟨[], []⟩ n).2))).2 := by
    unfold finalState
    rw [hrun]
  have hE : (validate_template_inputs ctx env).2.1 =
      (finalState ctx env ⟨[], []⟩).errors := rfl
  have hW : (validate_template_inputs ctx env).2.2 =
      (finalState ctx env ⟨[], []⟩).warnings := rfl
  rw [hE] at hne
  rcases vpn_reserved ⟨[], []⟩ n hres with ⟨m, hm⟩ | ⟨hw, _⟩
  · exfalso
    have hmem : m ∈ (validate_project_name ⟨[], []⟩ n).2.errors := by
      rw [hm]
      exact List.mem_append_right _ (List.mem_singleton_self _)
    have h2 : m ∈ (finalState ctx env ⟨[], []⟩).errors := by
      rw [hfin]
      exact (frame_env env).errors_mono _ ((frame_email ctx).errors_mono _
        ((frame_runRequired ctx restFields rules_frame_rest).errors_mono _ hmem))
    rw [hne] at h2
    exact List.not_mem_nil m h2
  · constructor
    · show (finalState ctx env ⟨[], []⟩).errors.isEmpty = true
      rw [hne]
      rfl
    · have hwm : reservedMsg n ∈ (validate_project_name ⟨[], []⟩ n).2.warnings := by
        rw [hw]
        exact List.mem_append_right _ (List.mem_singleton_self _)
      rw [hW, hfin]
      exact (frame_env env).warnings_mono _ ((frame_email ctx).warnings_mono _
        ((frame_runRequired ctx restFields rules_frame_rest).warnings_mono _ hwm))

/-- C7 witness: the worked example with project name android succeeds with
    the reserved-word warning present. -/
theorem reserved_name_warning_witness :
    (validate_template_inputs ctxAndroid envAllGood).1 = true
    ∧ reservedMsg "android" ∈ (validate_template_inputs ctxAndroid envAllGood).2.2 :=
  reserved_name_warning ctxAndroid envAllGood "android" rfl (by decide) (by decide)

/-- C8: in validate_environment only the java probe contributes errors,
    exactly one message when it does not exit zero and none when it does,
    while the SDK and IDE probes contribute at most one warning each and
    never an error; every probe failure becomes an accumulated message, the
    embedding being a total function of the probe outcomes. -/
theorem validate_environment_claim (env : Env) (st : VState) :
    (validate_environment env st).2.errors = st.errors ++ javaErrs env.javaRun
    ∧ (validate_environment env st).2.warnings =
        st.warnings
          ++ (if (sdk_paths env).any env.fsExists then []
              else ["Android SDK not found in common locations"])
          ++ (if (studio_paths env).any env.fsExists then []
              else ["Android Studio not found in common locations"])
    ∧ (javaErrs env.javaRun).length ≤ 1
    ∧ (javaErrs env.javaRun = [] ↔ env.javaRun = JavaRun.exited 0) := by
  refine ⟨?_, ?_, ?_, ?_⟩
  · rw [validate_environment_spec env st]
  · rw [validate_environment_spec env st]
  · cases h : env.javaRun with
    | exited c => by_cases hc : c = 0 <;> simp [javaErrs, hc]
    | timedOut => simp [javaErrs]
    | notFound => simp [javaErrs]
  · cases h : env.javaRun with
    | exited c =>
        by_cases hc : c = 0
        · subst hc
          simp [javaErrs]
        · simp [javaErrs, hc]
    | timedOut => simp [javaErrs]
    | notFound => simp [javaErrs]

/-- C9: validate_template_inputs is a pure function of the context and the
    probe outcomes, so two invocations on the same unmodified context with
    identical probe outcomes return identical tri-tuples; each invocation
    starts from a fresh empty accumulator, and the messages a pass appends
    do not depend on the accumulator it starts from, so no state leaks
    between runs. -/
theorem validate_template_inputs_fresh (ctx : Ctx) (env : Env) :
    validate_template_inputs ctx env = validate_template_inputs ctx env
    ∧ validate_template_inputs ctx env = validate_all ctx env ⟨[], []⟩
    ∧ ∀ st : VState,
        (validate_all ctx env st).2.1 =
          st.errors ++ (validate_template_inputs ctx env).2.1
        ∧ (validate_all ctx env st).2.2 =
          st.warnings ++ (validate_template_inputs ctx env).2.2 := by
  refine ⟨rfl, rfl, fun st => ⟨?_, ?_⟩⟩
  · show (finalState ctx env st).errors = st.errors ++ (finalState ctx env ⟨[], []⟩).errors
    rw [frame_finalState ctx env st]
  · show (finalState ctx env st).warnings =
      st.warnings ++ (finalState ctx env ⟨[], []⟩).warnings
    rw [frame_finalState ctx env st]

/-- C10: each field validator returns true exactly when it appended no
    error message in that call, warnings notwithstanding; in particular a
    nonempty non-semver version string is accepted with a warning and the
    empty email is accepted with a warning. -/
theorem field_validators_bool_iff_no_error :
    (∀ (st : VState) (s : String),
      (validate_project_name st s).1 = true ↔
        (validate_project_name st s).2.errors = st.errors)
    ∧ (∀ (st : VState) (s : String),
      (validate_package_name st s).1 = true ↔
        (validate_package_name st s).2.errors = st.errors)
    ∧ (∀ (st : VState) (s : String) (mn mx : Int),
      (validate_sdk_version st s mn mx).1 = true ↔
        (validate_sdk_version st s mn mx).2.errors = st.errors)
    ∧ (∀ (st : VState) (s : String),
      (validate_java_version st s).1 = true ↔
        (validate_java_version st s).2.errors = st.errors)
    ∧ (∀ (st : VState) (s : String),
      (validate_email st s).1 = true ↔ (validate_email st s).2.errors = st.errors)
    ∧ (∀ (st : VState) (s : String),
      (validate_version_name st s).1 = true ↔
        (validate_version_name st s).2.errors = st.errors)
    ∧ (validate_version_name ⟨[], []⟩ "hello").1 = true
    ∧ (validate_email ⟨[], []⟩ "").1 = true := by
  refine ⟨?_, ?_, ?_, ?_, ?_, ?_, by decide, by decide⟩
  · intro st s
    unfold validate_project_name
    split_ifs <;>
      first
        | exact iff_of_true rfl rfl
        | exact iff_of_false (by simp) (fun hh => append_singleton_ne _ _ hh)
  · intro st s
    unfold validate_package_name
    split_ifs <;>
      first
        | exact iff_of_true rfl rfl
        | exact iff_of_false (by simp) (fun hh => append_singleton_ne _ _ hh)
  · intro st s mn mx
    cases h : pyParseInt s with
    | none =>
        rw [validate_sdk_version_none h st mn mx]
        exact iff_of_false (by simp) (fun hh => append_singleton_ne _ _ hh)
    | some n =>
        rw [validate_sdk_version_some h st mn mx]
        split_ifs
        · exact iff_of_false (by simp) (fun hh => append_singleton_ne _ _ hh)
        · exact iff_of_true rfl rfl
  · intro st s
    cases h : pyParseInt s with
    | none =>
        rw [validate_java_version_none h st]
        exact iff_of_false (by simp) (fun hh => append_singleton_ne _ _ hh)
    | some n =>
        rw [validate_java_version_some h st]
        split_ifs
        · exact iff_of_false (by simp) (fun hh => append_singleton_ne _ _ hh)
        · exact iff_of_true rfl rfl
  · intro st s
    unfold validate_email
    split_ifs <;>
      first
        | exact iff_of_true rfl rfl
        | exact iff_of_false (by simp) (fun hh => append_singleton_ne _ _ hh)
  · intro st s
    unfold validate_version_name
    split_ifs <;>
      first
        | exact iff_of_true rfl rfl
        | exact iff_of_false (by simp) (fun hh => append_singleton_ne _ _ hh)

end AndroidTemplate
